import Mathlib

/-!
Shallow embedding of the timelapse capture server (`server.js`).

Modelling conventions:
* An image buffer is a list of bytes (`List Nat`).
* The per-URL capture directory is an association list from file name to
  contents; a write prepends, and reads find the most recent entry.
* Network and filesystem outcomes (fetch result, write success, GIF pipeline
  success, the current clock) are passed explicitly to each request handler,
  so a handler is a pure function from these outcomes and the server state to
  the next state together with the HTTP-level response.
* The image decode / resize / GIF-encode libraries (`sharp`,
  `gif-encoder-2`) are external black boxes; the artifact is modelled as the
  ordered list of accepted frame names together with the per-frame delay.
-/

/-- Image buffers are raw byte sequences. -/
abbrev Bytes := List Nat

/-- Outcome of one HTTP GET issued by `fetchImage`: either the request emits
an `error` event before a response arrives, or a response arrives with a
status code and a sequence of body chunks, possibly interrupted by a stream
`error` event. -/
inductive FetchOutcome where
  | connError (msg : String)
  | response (statusCode : Nat) (chunks : List Bytes) (streamError : Option String)
deriving DecidableEq

/-- Embedding of `fetchImage` (server.js lines 93-113): rejects when the
request or the response stream emits an `error` event, and otherwise resolves
with the concatenation of the body chunks.  The response's status code is
never inspected. -/
def fetchImage : FetchOutcome → Except String Bytes
  | .connError msg => .error msg
  | .response _statusCode _chunks (some msg) => .error msg
  | .response _statusCode chunks none => .ok chunks.flatten

/-- Embedding of JavaScript `String(n).padStart(5, '0')` for a natural
number. -/
def padStart5 (n : Nat) : String :=
  let s := toString n
  String.mk (List.replicate (5 - s.length) '0') ++ s

/-- Removal of the first occurrence of `pat` from a character sequence,
scanning left to right (the semantics of JavaScript `s.replace(pat, '')`
for a plain-string pattern). -/
def removeFirstSub (pat : List Char) : List Char → List Char
  | [] => []
  | x :: xs =>
      if pat.isPrefixOf (x :: xs) then (x :: xs).drop pat.length
      else x :: removeFirstSub pat xs

/-- Embedding of JavaScript `s.replace(pat, '')`, which removes only the
first occurrence of `pat`. -/
def jsReplaceFirst (s pat : String) : String :=
  String.mk (removeFirstSub pat.data s.data)

/-- Splitting a character sequence at every occurrence of the character `c`
(the semantics of JavaScript `s.split(c)` for a one-character separator). -/
def splitOnChar (c : Char) : List Char → List (List Char)
  | [] => [[]]
  | x :: xs =>
      match splitOnChar c xs with
      | [] => if x = c then [[], []] else [[x]]
      | y :: ys => if x = c then [] :: y :: ys else (x :: y) :: ys

/-- Value of a sequence of decimal digit characters. -/
def digitsToNat (cs : List Char) : Nat :=
  cs.foldl (fun acc c => acc * 10 + (c.toNat - 48)) 0

/-- Embedding of JavaScript `parseInt(s)` restricted to base 10: skip
leading spaces, accept an optional sign, then parse the longest prefix of
decimal digits; `none` models `NaN` (no digits found). -/
def jsParseInt (s : String) : Option Int :=
  match s.data.dropWhile (fun c => c = ' ') with
  | '-' :: rest =>
      let ds := rest.takeWhile Char.isDigit
      if ds.isEmpty then none else some (-(digitsToNat ds : Int))
  | '+' :: rest =>
      let ds := rest.takeWhile Char.isDigit
      if ds.isEmpty then none else some (digitsToNat ds)
  | rest =>
      let ds := rest.takeWhile Char.isDigit
      if ds.isEmpty then none else some (digitsToNat ds)

/-- Embedding of `getTimestamp` inside `loadExistingSession` (server.js
lines 54-57): strip the first `.png`, split on underscores and parse the
last field as an integer; `none` models `NaN`. -/
def getTimestamp (filename : String) : Option Int :=
  let parts := splitOnChar '_' ((jsReplaceFirst filename ".png").data)
  jsParseInt (String.mk ((parts.getLast?).getD []))

/-- Numeric sort key for a frame file name.  The JavaScript comparator is
`getTimestamp(a) - getTimestamp(b)`; its behaviour when a timestamp is `NaN`
is unspecified, so the model fixes the `NaN` key to 0 (all claims concern
well-formed names, whose key is the parsed timestamp). -/
def tsKey (filename : String) : Int := (getTimestamp filename).getD 0

/-- Filter applied by `loadExistingSession` (server.js line 51): keep files
that start with `image_` and end with `.png` (stated over the character
sequences of the names). -/
def isFrameFile (f : String) : Bool :=
  "image_".data.isPrefixOf f.data && ".png".data.isSuffixOf f.data

/-- Result of `loadExistingSession`. -/
structure ExistingData where
  images : List String
  captureCount : Nat
deriving DecidableEq

/-- Embedding of `loadExistingSession` (server.js lines 47-74).  The input
is the outcome of `fs.readdir`: `none` when the directory is absent (the
`catch` branch), `some files` otherwise.  Matching files are sorted by the
timestamp embedded in the name; the stable JavaScript
`Array.prototype.sort` with comparator `getTimestamp(a) - getTimestamp(b)`
is modelled by a stable insertion sort on the same key. -/
def loadExistingSession : Option (List String) → ExistingData
  | none => { images := [], captureCount := 0 }
  | some files =>
      let imageFiles := (files.filter isFrameFile).insertionSort
        (fun a b => tsKey a ≤ tsKey b)
      { images := imageFiles, captureCount := imageFiles.length }

/-- Contents of `metadata.json` for a capture directory. -/
structure Metadata where
  url : String
  createdAt : Nat
deriving DecidableEq

/-- Embedding of `saveMetadata` (server.js lines 77-90): the state of the
metadata file is `none` when absent; the function writes the URL and the
current time only when the file does not exist, and otherwise leaves it
untouched. -/
def saveMetadata (existing : Option Metadata) (url : String) (now : Nat) :
    Option Metadata :=
  match existing with
  | some m => some m
  | none => some { url := url, createdAt := now }

/-- Read a file from the capture directory: the most recently written entry
under that name, `none` when absent (a read failure). -/
def readFile (files : List (String × Bytes)) (name : String) : Option Bytes :=
  (files.find? (fun p => p.1 == name)).map Prod.snd

/-- Write a file into the capture directory, shadowing any previous entry
with the same name. -/
def writeFile (files : List (String × Bytes)) (name : String) (contents : Bytes) :
    List (String × Bytes) :=
  (name, contents) :: files

/-- Embedding of `imagesAreIdentical` (server.js lines 11-19): read both
files and compare byte-for-byte; any read failure yields `false`. -/
def imagesAreIdentical (files : List (String × Bytes)) (path1 path2 : String) : Bool :=
  match readFile files path1, readFile files path2 with
  | some b1, some b2 => b1 == b2
  | _, _ => false

/-- Embedding of the frame-walk loop of `generateGif` (server.js lines
140-159): walk the frame names in order keeping the previously accepted
name; a frame identical to the previously accepted one is skipped, any other
frame is emitted and becomes the new previously accepted frame. -/
def gifWalk (files : List (String × Bytes)) :
    Option String → List String → List String
  | _, [] => []
  | none, imageName :: rest => imageName :: gifWalk files (some imageName) rest
  | some prev, imageName :: rest =>
      if imagesAreIdentical files imageName prev then gifWalk files (some prev) rest
      else imageName :: gifWalk files (some imageName) rest

/-- The GIF artifact: the ordered accepted frames and the per-frame delay
(the pixel-level encoding is the external encoder's concern). -/
structure GifArtifact where
  frames : List String
  delay : Int
deriving DecidableEq

/-- Embedding of `generateGif` (server.js lines 116-166): `null` (here
`none`) on an empty frame list, otherwise the artifact assembled from the
frames accepted by the deduplicating walk, at the given delay. -/
def generateGif (files : List (String × Bytes)) (images : List String)
    (delay : Int) : Option GifArtifact :=
  if images.isEmpty then none
  else some { frames := gifWalk files none images, delay := delay }

/-- In-memory session record stored in the `sessions` map (server.js lines
188-194; the derived directory fields are constants of the session and are
elided). -/
structure SessionRec where
  url : String
  images : List String
  captureCount : Nat
deriving DecidableEq

/-- Whole-server state touched by a capture: the capture directory contents,
the GIF artifact on disk, and the session record. -/
structure ServerState where
  files : List (String × Bytes)
  gif : Option GifArtifact
  session : SessionRec
deriving DecidableEq

/-- Success payload of `/api/capture/:sessionId` (server.js lines 240-245);
`latestImage` is `undefined` (here `none`) when the session has no images. -/
structure CaptureOk where
  imageCount : Nat
  latestImage : Option String
  duplicate : Bool
deriving DecidableEq

/-- External outcomes consumed by one capture request: the fetch result, the
clock value `Date.now()`, and whether the frame write and the GIF pipeline
succeed. -/
structure CaptureEffects where
  fetch : Except String Bytes
  timestamp : Nat
  writeOk : Bool
  gifOk : Bool

/-- File name chosen for a newly captured frame (server.js line 228). -/
def captureName (eff : CaptureEffects) (s : ServerState) : String :=
  "image_" ++ padStart5 s.session.captureCount ++ "_" ++ toString eff.timestamp ++ ".png"

/-- The non-duplicate branch of the capture handler (server.js lines
226-238): write the frame, append its name to the session's sequence,
increment the counter, then regenerate the GIF at the default 500 ms delay.
A write failure or a GIF failure raises into the handler's `catch`;
note the session was already mutated when the GIF step runs. -/
def saveNewImage (eff : CaptureEffects) (s : ServerState) (imageBuffer : Bytes) :
    ServerState × Except String CaptureOk :=
  let imageName := captureName eff s
  if eff.writeOk then
    let files2 := writeFile s.files imageName imageBuffer
    let session2 : SessionRec :=
      { s.session with images := s.session.images ++ [imageName],
                       captureCount := s.session.captureCount + 1 }
    let s2 : ServerState := { files := files2, gif := s.gif, session := session2 }
    if eff.gifOk then
      ({ s2 with gif := generateGif files2 session2.images 500 },
       .ok { imageCount := session2.images.length,
             latestImage := session2.images.getLast?, duplicate := false })
    else (s2, .error ("Failed to capture image: " ++ "gif failed"))
  else (s, .error ("Failed to capture image: " ++ "write failed"))

/-- Embedding of the `/api/capture/:sessionId` handler (server.js lines
205-250) after session lookup: fetch, compare against the last stored frame
when one exists, store only when different, and answer; every raised error
is caught and reported with a "Failed to capture image: " message, leaving
the state as the mutation had left it. -/
def captureStep (eff : CaptureEffects) (s : ServerState) :
    ServerState × Except String CaptureOk :=
  match eff.fetch with
  | .error e => (s, .error ("Failed to capture image: " ++ e))
  | .ok imageBuffer =>
    match s.session.images.getLast? with
    | some lastImage =>
      match readFile s.files lastImage with
      | none => (s, .error ("Failed to capture image: " ++ "ENOENT"))
      | some lastImageBuffer =>
        if imageBuffer == lastImageBuffer then
          (s, .ok { imageCount := s.session.images.length,
                    latestImage := s.session.images.getLast?, duplicate := true })
        else saveNewImage eff s imageBuffer
    | none => saveNewImage eff s imageBuffer

/-- Payload of `/api/start` relevant to the claims. -/
structure StartResponse where
  existingImages : Nat
  continuing : Bool
deriving DecidableEq

/-- Embedding of the `/api/start` handler (server.js lines 169-202): write
the metadata once, load any existing frames from the directory listing, and
register a session whose sequence and counter come from the loaded data. -/
def startStep (meta : Option Metadata) (url : String) (now : Nat)
    (listing : Option (List String)) :
    Option Metadata × SessionRec × StartResponse :=
  let meta2 := saveMetadata meta url now
  let existingData := loadExistingSession listing
  (meta2,
   { url := url, images := existingData.images,
     captureCount := existingData.captureCount },
   { existingImages := existingData.captureCount,
     continuing := decide (0 < existingData.captureCount) })

/-- Embedding of JavaScript `Math.round` on exact rationals: round half
towards positive infinity. -/
def jsMathRound (x : ℚ) : Int := Int.floor (x + 1 / 2)

/-- Embedding of the delay computation of `/api/generate-gif/:sessionId`
(server.js lines 280-281): `Math.round(500 / (speed || 1))`, where a missing
or zero speed falls back to 1. -/
def computeDelay (speed : Option ℚ) : Int :=
  let baseDelay : ℚ := 500
  jsMathRound (baseDelay /
    (match speed with
     | none => 1
     | some v => if v = 0 then 1 else v))

/-- Embedding of the `/api/generate-gif/:sessionId` handler (server.js lines
270-288) after session lookup: regenerate the artifact from the session's
frames at the computed delay. -/
def regenerateStep (s : ServerState) (speed : Option ℚ) : ServerState :=
  { s with gif := generateGif s.files s.session.images (computeDelay speed) }

/-- Run a list of capture requests in order, keeping the resulting state. -/
def runCaptures (effs : List CaptureEffects) (s : ServerState) : ServerState :=
  effs.foldl (fun st eff => (captureStep eff st).1) s

/-- Run a sequence of captures that all fetch the same bytes `b` (one per
timestamp), with the write and GIF steps succeeding. -/
def runSame (b : Bytes) (tss : List Nat) (s : ServerState) : ServerState :=
  tss.foldl
    (fun st ts =>
      (captureStep { fetch := .ok b, timestamp := ts, writeOk := true, gifOk := true } st).1)
    s

/-- Contents of a frame file, defaulting to the empty buffer when the file
is absent (used only under a hypothesis that the file exists). -/
def frameContent (files : List (String × Bytes)) (name : String) : Bytes :=
  (readFile files name).getD []

/-- Modelled from the spec: the assembly-time deduplication described in the
design — while a previous accepted frame exists, a frame equal to it is
skipped and any other frame is emitted and becomes the previous accepted
frame.  Stated over frame contents; compared against the walk of
`generateGif`. -/
def specCollapseGo (prev : Bytes) : List Bytes → List Bytes
  | [] => []
  | b :: rest => if b = prev then specCollapseGo prev rest else b :: specCollapseGo b rest

/-- Modelled from the spec: collapse immediate repeats of a frame-content
sequence, keeping the first element of every run. -/
def specCollapseAdjacent : List Bytes → List Bytes
  | [] => []
  | b :: rest => b :: specCollapseGo b rest

/-- Concrete server state used to evaluate the theorems: one stored frame
with contents `[7]`, registered in the session. -/
def S0 : ServerState :=
  { files := [("image_00000_5.png", [7])], gif := none,
    session := { url := "u", images := ["image_00000_5.png"], captureCount := 1 } }

/-- Concrete capture directory with frame contents A, A, B, A (A = `[0]`,
B = `[1]`). -/
def F4 : List (String × Bytes) :=
  [("n0", [0]), ("n1", [0]), ("n2", [1]), ("n3", [0])]

/-- Concrete capture outcome whose fetch fails. -/
def EffErr : CaptureEffects :=
  { fetch := Except.error "boom", timestamp := 0, writeOk := true, gifOk := true }

/-! ## Helper lemmas about the capture handler -/

/-- A failed fetch makes the whole capture fail with a descriptive message
and leaves the state unchanged. -/
theorem captureStep_fetch_error (msg : String) (ts : Nat) (w g : Bool) (s : ServerState) :
    captureStep ⟨Except.error msg, ts, w, g⟩ s =
      (s, Except.error ("Failed to capture image: " ++ msg)) := rfl

/-- A capture whose fetched bytes equal the last stored frame's bytes is
reported as a duplicate and changes nothing. -/
theorem captureStep_dup_eq (s : ServerState) (b : Bytes) (nm : String) (ts : Nat) (w g : Bool)
    (h1 : s.session.images.getLast? = some nm)
    (h2 : readFile s.files nm = some b) :
    captureStep ⟨Except.ok b, ts, w, g⟩ s =
      (s, Except.ok { imageCount := s.session.images.length,
                      latestImage := s.session.images.getLast?, duplicate := true }) := by
  unfold captureStep
  simp only [h1, h2]
  simp

/-- A capture into a session with no frames goes to the save branch. -/
theorem captureStep_empty_eq (s : ServerState) (b : Bytes) (ts : Nat) (w g : Bool)
    (h : s.session.images = []) :
    captureStep ⟨Except.ok b, ts, w, g⟩ s = saveNewImage ⟨Except.ok b, ts, w, g⟩ s b := by
  unfold captureStep
  simp [h]

/-- A capture whose fetched bytes differ from the last stored frame's bytes
goes to the save branch. -/
theorem captureStep_new_eq (s : ServerState) (b lb : Bytes) (nm : String) (ts : Nat) (w g : Bool)
    (h1 : s.session.images.getLast? = some nm)
    (h2 : readFile s.files nm = some lb) (h3 : b ≠ lb) :
    captureStep ⟨Except.ok b, ts, w, g⟩ s = saveNewImage ⟨Except.ok b, ts, w, g⟩ s b := by
  unfold captureStep
  simp [h1, h2, h3]

/-- Reading a just-written file yields the written bytes. -/
theorem readFile_writeFile (files : List (String × Bytes)) (name : String) (b : Bytes) :
    readFile (writeFile files name b) name = some b := by
  simp [readFile, writeFile]

/-! ## Claim theorems -/

/-- Claim C1, counterexample: a completed response with status 404 does not
make the fetch fail — its body bytes are returned as if they were a captured
image, because `fetchImage` never inspects the status code. -/
theorem claim1_counterexample :
    fetchImage (FetchOutcome.response 404 [[1, 2, 3]] none) = Except.ok [1, 2, 3] ∧
    (fetchImage (FetchOutcome.response 404 [[1, 2, 3]] none)).isOk = true := by
  exact ⟨rfl, rfl⟩

/-- Claim C1 as amended: a network-level failure of the request or of the
response stream makes the fetch fail, and a failed fetch aborts the capture
with a capture-failure message leaving the state unchanged; but the HTTP
status code is never inspected — any response that completes resolves with
its concatenated body bytes, whatever its status. -/
theorem claim1_fetch_failure_amended :
    (∀ msg, fetchImage (FetchOutcome.connError msg) = Except.error msg) ∧
    (∀ st chunks msg,
      fetchImage (FetchOutcome.response st chunks (some msg)) = Except.error msg) ∧
    (∀ st chunks,
      fetchImage (FetchOutcome.response st chunks none) = Except.ok chunks.flatten) ∧
    (∀ msg ts w g (s : ServerState),
      captureStep ⟨Except.error msg, ts, w, g⟩ s =
        (s, Except.error ("Failed to capture image: " ++ msg))) := by
  refine ⟨fun _ => rfl, fun _ _ _ => rfl, fun _ _ => rfl, fun _ _ _ _ _ => rfl⟩

/-- Claim C5: assembling an empty frame list produces no artifact and no
error (the total function `generateGif` returns `none`). -/
theorem claim5_empty_assembly :
    ∀ (files : List (String × Bytes)) (delay : Int),
      generateGif files [] delay = none := by
  intro files delay
  rfl

/-- Claim C7: directory metadata is written only when absent — the first
session start for a directory records the URL and its own timestamp, and any
later session start (same or different URL, any clock value) leaves the
previously recorded metadata, including its timestamp, unchanged. -/
theorem claim7_metadata_write_once :
    ∀ (url : String) (now : Nat) (listing : Option (List String)) (m : Metadata)
      (url2 : String) (now2 : Nat) (listing2 : Option (List String)),
      (startStep none url now listing).1 = some { url := url, createdAt := now } ∧
      (startStep (some m) url2 now2 listing2).1 = some m ∧
      (startStep (startStep none url now listing).1 url2 now2 listing2).1 =
        some { url := url, createdAt := now } := by
  intro url now listing m url2 now2 listing2
  exact ⟨rfl, rfl, rfl⟩

/-- Claim C8: for a positive speed multiplier the regeneration endpoint uses
a per-frame delay equal to the 500 ms base delay divided by the multiplier
and rounded to the nearest integer (JavaScript `Math.round`, ties up), and
passes exactly that delay to the assembler. -/
theorem claim8_speed_delay (m : ℚ) (hm : 0 < m) :
    computeDelay (some m) = round ((500 : ℚ) / m) ∧
    ∀ s : ServerState,
      (regenerateStep s (some m)).gif =
        generateGif s.files s.session.images (round ((500 : ℚ) / m)) := by
  have hne : m ≠ 0 := ne_of_gt hm
  have h1 : computeDelay (some m) = round ((500 : ℚ) / m) := by
    unfold computeDelay jsMathRound
    rw [round_eq]
    simp [hne]
  exact ⟨h1, fun s => by unfold regenerateStep; rw [h1]⟩

/-- Claim C8 witness: the 2x multiplier is positive and yields a 250 ms
delay. -/
theorem claim8_speed_delay_witness :
    (0 : ℚ) < 2 ∧ computeDelay (some 2) = 250 := by
  refine ⟨by norm_num, ((claim8_speed_delay 2 (by norm_num)).1).trans ?_⟩
  norm_num [round_eq]

/-- The last element of a list extended on the right. -/
theorem getLast?_append_one (l : List String) (a : String) : (l ++ [a]).getLast? = some a := by
  simp

/-- When the write and the GIF step succeed, the save branch appends exactly
the new frame name, increments the counter by one, and stores the fetched
bytes under the new name. -/
theorem saveNewImage_success (eff : CaptureEffects) (s : ServerState) (b : Bytes)
    (hw : eff.writeOk = true) (hg : eff.gifOk = true) :
    (saveNewImage eff s b).1.session.images = s.session.images ++ [captureName eff s] ∧
    (saveNewImage eff s b).1.session.captureCount = s.session.captureCount + 1 ∧
    (saveNewImage eff s b).1.files = writeFile s.files (captureName eff s) b := by
  unfold saveNewImage
  simp [hw, hg]

/-- A state whose last stored frame holds exactly the bytes `b` is a fixed
point of any capture sequence that keeps fetching `b`. -/
theorem runSame_fixed (b : Bytes) (nm : String) (tss : List Nat) (s : ServerState)
    (h1 : s.session.images.getLast? = some nm)
    (h2 : readFile s.files nm = some b) :
    runSame b tss s = s := by
  induction tss with
  | nil => rfl
  | cons ts rest ih =>
      show runSame b rest (captureStep ⟨Except.ok b, ts, true, true⟩ s).1 = s
      rw [captureStep_dup_eq s b nm ts true true h1 h2]
      exact ih

/-- Claim C2: a capture fetching exactly the last stored frame's bytes
writes nothing, increments nothing, leaves the frame sequence unchanged and
answers with a duplicate report; consequently a non-empty run of captures
that all fetch the same bytes — starting from a session with no frames or
whose last frame differs from those bytes — stores exactly one frame and
raises the frame count by exactly 1 over the whole run. -/
theorem claim2_duplicate_discard :
    (∀ (s : ServerState) (b : Bytes) (nm : String) (ts : Nat) (w g : Bool),
      s.session.images.getLast? = some nm →
      readFile s.files nm = some b →
      captureStep ⟨Except.ok b, ts, w, g⟩ s =
        (s, Except.ok { imageCount := s.session.images.length,
                        latestImage := some nm, duplicate := true })) ∧
    (∀ (b : Bytes) (tss : List Nat) (s : ServerState),
      tss ≠ [] →
      (s.session.images = [] ∨
        ∃ nm lb, s.session.images.getLast? = some nm ∧
          readFile s.files nm = some lb ∧ lb ≠ b) →
      (runSame b tss s).session.captureCount = s.session.captureCount + 1 ∧
      (runSame b tss s).session.images.length = s.session.images.length + 1 ∧
      s.session.images <+: (runSame b tss s).session.images) := by
  constructor
  · intro s b nm ts w g h1 h2
    rw [captureStep_dup_eq s b nm ts w g h1 h2, h1]
  · intro b tss s hne hfresh
    obtain ⟨ts, rest, rfl⟩ : ∃ ts rest, tss = ts :: rest := by
      cases tss with
      | nil => exact absurd rfl hne
      | cons a l => exact ⟨a, l, rfl⟩
    have hstep : captureStep ⟨Except.ok b, ts, true, true⟩ s =
        saveNewImage ⟨Except.ok b, ts, true, true⟩ s b := by
      rcases hfresh with hemp | ⟨nm, lb, h1, h2, h3⟩
      · exact captureStep_empty_eq s b ts true true hemp
      · exact captureStep_new_eq s b lb nm ts true true h1 h2 (Ne.symm h3)
    obtain ⟨himg, hcnt, hfiles⟩ :=
      saveNewImage_success ⟨Except.ok b, ts, true, true⟩ s b rfl rfl
    have hrun : runSame b (ts :: rest) s =
        (saveNewImage ⟨Except.ok b, ts, true, true⟩ s b).1 := by
      show runSame b rest (captureStep ⟨Except.ok b, ts, true, true⟩ s).1 = _
      rw [hstep]
      refine runSame_fixed b (captureName ⟨Except.ok b, ts, true, true⟩ s) rest _ ?_ ?_
      · rw [himg]; exact getLast?_append_one _ _
      · rw [hfiles]; exact readFile_writeFile _ _ _
    rw [hrun, himg, hcnt]
    exact ⟨rfl, by simp, List.prefix_append _ _⟩

/-- Claim C2 witness: on the concrete state `S0` a capture refetching the
stored bytes `[7]` is reported as a duplicate without any change, and a run
of two captures fetching the fresh bytes `[8]` stores exactly one frame. -/
theorem claim2_duplicate_discard_witness :
    captureStep ⟨Except.ok [7], 9, true, true⟩ S0 =
      (S0, Except.ok { imageCount := 1, latestImage := some "image_00000_5.png",
                       duplicate := true }) ∧
    ((runSame [8] [11, 12] S0).session.captureCount = S0.session.captureCount + 1 ∧
     (runSame [8] [11, 12] S0).session.images.length = S0.session.images.length + 1 ∧
     S0.session.images <+: (runSame [8] [11, 12] S0).session.images) :=
  ⟨claim2_duplicate_discard.1 S0 [7] "image_00000_5.png" 9 true true rfl (by decide),
   claim2_duplicate_discard.2 [8] [11, 12] S0 (by decide)
     (Or.inr ⟨"image_00000_5.png", [7], rfl, by decide, by decide⟩)⟩

/-- Claim C10: a capture whose fetched bytes duplicate the last stored frame
does not touch the GIF artifact on disk, writes no file, and still answers
success with the existing image count and latest frame name (and the
duplicate flag set). -/
theorem claim10_duplicate_no_regen :
    ∀ (s : ServerState) (b : Bytes) (nm : String) (ts : Nat) (w g : Bool),
      s.session.images.getLast? = some nm →
      readFile s.files nm = some b →
      (captureStep ⟨Except.ok b, ts, w, g⟩ s).1.gif = s.gif ∧
      (captureStep ⟨Except.ok b, ts, w, g⟩ s).1.files = s.files ∧
      (captureStep ⟨Except.ok b, ts, w, g⟩ s).2 =
        Except.ok { imageCount := s.session.images.length,
                    latestImage := some nm, duplicate := true } := by
  intro s b nm ts w g h1 h2
  rw [captureStep_dup_eq s b nm ts w g h1 h2]
  exact ⟨rfl, rfl, by rw [h1]⟩

/-- Claim C10 witness: on the concrete state `S0`, refetching the stored
bytes leaves the artifact and the directory alone and reports the existing
count and latest name. -/
theorem claim10_duplicate_no_regen_witness :
    (captureStep ⟨Except.ok [7], 10, true, true⟩ S0).1.gif = S0.gif ∧
    (captureStep ⟨Except.ok [7], 10, true, true⟩ S0).1.files = S0.files ∧
    (captureStep ⟨Except.ok [7], 10, true, true⟩ S0).2 =
      Except.ok { imageCount := 1, latestImage := some "image_00000_5.png",
                  duplicate := true } :=
  claim10_duplicate_no_regen S0 [7] "image_00000_5.png" 10 true true rfl (by decide)

/-- When the save branch raises (write failure, or GIF failure after the
mutation), the error carries the capture-failure message, and the session is
either untouched or holds exactly the fully written new frame. -/
theorem saveNewImage_error (eff : CaptureEffects) (s : ServerState) (b : Bytes) (e : String)
    (hb : eff.fetch = Except.ok b)
    (herr : (saveNewImage eff s b).2 = Except.error e) :
    ("Failed to capture image: ".data <+: e.data) ∧
    ((saveNewImage eff s b).1 = s ∨
      ((saveNewImage eff s b).1.session.images = s.session.images ++ [captureName eff s] ∧
       (saveNewImage eff s b).1.session.captureCount = s.session.captureCount + 1 ∧
       readFile (saveNewImage eff s b).1.files (captureName eff s) = eff.fetch.toOption)) := by
  rcases hw : eff.writeOk with _ | _
  · have hsave : saveNewImage eff s b =
        (s, Except.error ("Failed to capture image: " ++ "write failed")) := by
      unfold saveNewImage; rw [hw]; rfl
    rw [hsave] at herr ⊢
    obtain rfl : ("Failed to capture image: " ++ "write failed") = e := by
      simpa using herr
    refine ⟨?_, Or.inl rfl⟩
    rw [String.data_append]
    exact List.prefix_append _ _
  · rcases hg : eff.gifOk with _ | _
    · have hsave : saveNewImage eff s b =
          ({ files := writeFile s.files (captureName eff s) b, gif := s.gif,
             session := { s.session with
               images := s.session.images ++ [captureName eff s],
               captureCount := s.session.captureCount + 1 } },
           Except.error ("Failed to capture image: " ++ "gif failed")) := by
        unfold saveNewImage; rw [hw, hg]; rfl
      rw [hsave] at herr ⊢
      obtain rfl : ("Failed to capture image: " ++ "gif failed") = e := by
        simpa using herr
      refine ⟨?_, Or.inr ⟨rfl, rfl, ?_⟩⟩
      · rw [String.data_append]
        exact List.prefix_append _ _
      · rw [hb]
        exact readFile_writeFile _ _ _
    · have hsave : (saveNewImage eff s b).2 = Except.ok
          { imageCount := (s.session.images ++ [captureName eff s]).length,
            latestImage := (s.session.images ++ [captureName eff s]).getLast?,
            duplicate := false } := by
        unfold saveNewImage; rw [hw, hg]; rfl
      rw [hsave] at herr
      exact absurd herr (by simp)

/-- Claim C9: every failed capture answers an error message carrying the
descriptive capture-failure prefix, and the in-memory session is never left
half-updated — either it is exactly as before the request, or (when only the
artifact regeneration failed, after the write) it holds exactly one new
frame record whose bytes were fully written to disk. -/
theorem claim9_capture_failure :
    ∀ (eff : CaptureEffects) (s : ServerState) (e : String),
      (captureStep eff s).2 = Except.error e →
      ("Failed to capture image: ".data <+: e.data) ∧
      ((captureStep eff s).1 = s ∨
        ((captureStep eff s).1.session.images = s.session.images ++ [captureName eff s] ∧
         (captureStep eff s).1.session.captureCount = s.session.captureCount + 1 ∧
         readFile (captureStep eff s).1.files (captureName eff s) = eff.fetch.toOption)) := by
  intro eff s e herr
  obtain ⟨f, ts, w, g⟩ := eff
  rcases f with msg | b
  · rw [captureStep_fetch_error msg ts w g s] at herr ⊢
    obtain rfl : ("Failed to capture image: " ++ msg) = e := by simpa using herr
    refine ⟨?_, Or.inl rfl⟩
    rw [String.data_append]
    exact List.prefix_append _ _
  · rcases hlast : s.session.images.getLast? with _ | nm
    · have hstep : captureStep ⟨Except.ok b, ts, w, g⟩ s =
          saveNewImage ⟨Except.ok b, ts, w, g⟩ s b := by
        apply captureStep_empty_eq
        cases h : s.session.images with
        | nil => rfl
        | cons a l => rw [h] at hlast; simp at hlast
      rw [hstep] at herr ⊢
      exact saveNewImage_error _ s b e rfl herr
    · rcases hread : readFile s.files nm with _ | lb
      · have hstep : captureStep ⟨Except.ok b, ts, w, g⟩ s =
            (s, Except.error ("Failed to capture image: " ++ "ENOENT")) := by
          unfold captureStep
          simp only [hlast, hread]
        rw [hstep] at herr ⊢
        obtain rfl : ("Failed to capture image: " ++ "ENOENT") = e := by simpa using herr
        refine ⟨?_, Or.inl rfl⟩
        rw [String.data_append]
        exact List.prefix_append _ _
      · by_cases hbeq : b = lb
        · subst hbeq
          rw [captureStep_dup_eq s b nm ts w g hlast hread] at herr
          exact absurd herr (by simp)
        · have hstep := captureStep_new_eq s b lb nm ts w g hlast hread hbeq
          rw [hstep] at herr ⊢
          exact saveNewImage_error _ s b e rfl herr

/-- Claim C9 witness: on the concrete state `S0` a capture whose fetch fails
with "boom" answers the descriptive message and leaves the state exactly as
it was. -/
theorem claim9_capture_failure_witness :
    ("Failed to capture image: ".data <+: ("Failed to capture image: boom").data) ∧
    ((captureStep EffErr S0).1 = S0 ∨
      ((captureStep EffErr S0).1.session.images =
         S0.session.images ++ [captureName EffErr S0] ∧
       (captureStep EffErr S0).1.session.captureCount = S0.session.captureCount + 1 ∧
       readFile (captureStep EffErr S0).1.files (captureName EffErr S0) =
         EffErr.fetch.toOption)) :=
  claim9_capture_failure EffErr S0 "Failed to capture image: boom" rfl
/-- Loading existing frames always returns a count equal to the number of
loaded names. -/
theorem loadExistingSession_count (l : Option (List String)) :
    (loadExistingSession l).captureCount = (loadExistingSession l).images.length := by
  cases l <;> rfl

/-- The save branch either leaves the state untouched (write failure) or
appends exactly one frame name and increments the counter by one. -/
theorem saveNewImage_state_cases (eff : CaptureEffects) (s : ServerState) (b : Bytes) :
    (saveNewImage eff s b).1 = s ∨
    ((saveNewImage eff s b).1.session.images = s.session.images ++ [captureName eff s] ∧
     (saveNewImage eff s b).1.session.captureCount = s.session.captureCount + 1) := by
  unfold saveNewImage
  rcases hw : eff.writeOk with _ | _
  · simp
  · rcases hg : eff.gifOk with _ | _ <;> simp

/-- A capture request either leaves the state untouched or appends exactly
one frame name and increments the counter by one. -/
theorem captureStep_state_cases (eff : CaptureEffects) (s : ServerState) :
    (captureStep eff s).1 = s ∨
    ((captureStep eff s).1.session.images = s.session.images ++ [captureName eff s] ∧
     (captureStep eff s).1.session.captureCount = s.session.captureCount + 1) := by
  obtain ⟨f, ts, w, g⟩ := eff
  rcases f with msg | b
  · exact Or.inl rfl
  · rcases hlast : s.session.images.getLast? with _ | nm
    · rw [captureStep_empty_eq s b ts w g ?_]
      · exact saveNewImage_state_cases _ s b
      · cases h : s.session.images with
        | nil => rfl
        | cons a l => rw [h] at hlast; simp at hlast
    · rcases hread : readFile s.files nm with _ | lb
      · have hstep : captureStep ⟨Except.ok b, ts, w, g⟩ s =
            (s, Except.error ("Failed to capture image: " ++ "ENOENT")) := by
          unfold captureStep
          simp only [hlast, hread]
        rw [hstep]
        exact Or.inl rfl
      · by_cases hbeq : b = lb
        · subst hbeq
          rw [captureStep_dup_eq s b nm ts w g hlast hread]
          exact Or.inl rfl
        · rw [captureStep_new_eq s b lb nm ts w g hlast hread hbeq]
          exact saveNewImage_state_cases _ s b

/-- One capture preserves the invariant that the counter equals the length
of the frame sequence. -/
theorem captureStep_preserves_inv (eff : CaptureEffects) (s : ServerState)
    (h : s.session.captureCount = s.session.images.length) :
    (captureStep eff s).1.session.captureCount =
      (captureStep eff s).1.session.images.length := by
  rcases captureStep_state_cases eff s with heq | ⟨himg, hcnt⟩
  · rw [heq]; exact h
  · rw [himg, hcnt, h]; simp

/-- Any sequence of captures preserves the counter-length invariant. -/
theorem runCaptures_preserves_inv (effs : List CaptureEffects) (s : ServerState)
    (h : s.session.captureCount = s.session.images.length) :
    (runCaptures effs s).session.captureCount =
      (runCaptures effs s).session.images.length := by
  induction effs generalizing s with
  | nil => exact h
  | cons eff rest ih =>
      show (runCaptures rest (captureStep eff s).1).session.captureCount = _
      exact ih _ (captureStep_preserves_inv eff s h)

/-- Captures only ever extend the frame sequence at its end: the old
sequence stays a prefix. -/
theorem runCaptures_prefix (effs : List CaptureEffects) (s : ServerState) :
    s.session.images <+: (runCaptures effs s).session.images := by
  induction effs generalizing s with
  | nil => exact List.prefix_rfl
  | cons eff rest ih =>
      have hstep : s.session.images <+: (captureStep eff s).1.session.images := by
        rcases captureStep_state_cases eff s with heq | ⟨himg, _⟩
        · rw [heq]
        · rw [himg]; exact List.prefix_append _ _
      exact hstep.trans (ih (captureStep eff s).1)

/-- Claim C3: after a session start (fresh or resumed) followed by any
sequence of capture requests, the session's counter equals the length of its
frame sequence; the frames present at the start remain an unchanged prefix,
and every capture appends at most one frame at the end of the sequence, so
the order is the temporal capture order. -/
theorem claim3_count_order_invariant :
    (∀ (meta : Option Metadata) (url : String) (now : Nat)
       (listing : Option (List String)) (files : List (String × Bytes))
       (gif : Option GifArtifact) (effs : List CaptureEffects),
      (runCaptures effs ⟨files, gif, (startStep meta url now listing).2.1⟩).session.captureCount =
        (runCaptures effs ⟨files, gif, (startStep meta url now listing).2.1⟩).session.images.length ∧
      (startStep meta url now listing).2.1.images <+:
        (runCaptures effs ⟨files, gif, (startStep meta url now listing).2.1⟩).session.images) ∧
    (∀ (eff : CaptureEffects) (s : ServerState),
      (captureStep eff s).1.session.images = s.session.images ∨
      ∃ nm, (captureStep eff s).1.session.images = s.session.images ++ [nm]) := by
  constructor
  · intro meta url now listing files gif effs
    constructor
    · exact runCaptures_preserves_inv effs _ (loadExistingSession_count listing)
    · exact runCaptures_prefix effs ⟨files, gif, (startStep meta url now listing).2.1⟩
  · intro eff s
    rcases captureStep_state_cases eff s with heq | ⟨himg, _⟩
    · exact Or.inl (by rw [heq])
    · exact Or.inr ⟨captureName eff s, himg⟩

/-- The deduplicating walk with a previously accepted frame, seen through
the frame contents, is exactly the spec's collapse-against-previous walk. -/
theorem gifWalk_go (files : List (String × Bytes)) (names : List String) (prev : String)
    (hall : ∀ n ∈ names, (readFile files n).isSome = true)
    (hprev : (readFile files prev).isSome = true) :
    (gifWalk files (some prev) names).map (frameContent files) =
      specCollapseGo (frameContent files prev) (names.map (frameContent files)) := by
  induction names generalizing prev with
  | nil => rfl
  | cons n rest ih =>
      have hn : (readFile files n).isSome = true := hall n (List.mem_cons_self _ _)
      have hrest : ∀ m ∈ rest, (readFile files m).isSome = true :=
        fun m hm => hall m (List.mem_cons_of_mem _ hm)
      obtain ⟨bn, hbn⟩ := Option.isSome_iff_exists.mp hn
      obtain ⟨bp, hbp⟩ := Option.isSome_iff_exists.mp hprev
      have hid : imagesAreIdentical files n prev = (bn == bp) := by
        unfold imagesAreIdentical; rw [hbn, hbp]
      have hcn : frameContent files n = bn := by unfold frameContent; rw [hbn]; rfl
      have hcp : frameContent files prev = bp := by unfold frameContent; rw [hbp]; rfl
      show (if imagesAreIdentical files n prev then gifWalk files (some prev) rest
            else n :: gifWalk files (some n) rest).map (frameContent files) =
        specCollapseGo (frameContent files prev)
          ((n :: rest).map (frameContent files))
      rw [List.map_cons, hid, hcp, hcn]
      by_cases hbb : bn = bp
      · rw [if_pos (by simp [hbb]), specCollapseGo, if_pos hbb]
        rw [ih prev hrest hprev, hcp]
      · rw [if_neg (by simp [hbb]), specCollapseGo, if_neg hbb]
        rw [List.map_cons, hcn]
        rw [ih n hrest hn, hcn]

/-- Claim C4: assembly walks the frames in sequence order with a
previous-accepted pointer, skipping a frame exactly when it is identical to
the previously accepted one; over the frame contents the emitted sequence is
precisely the spec's collapse of immediate repeats (so non-adjacent repeats
are preserved). -/
theorem claim4_assembly_dedup (files : List (String × Bytes)) (names : List String)
    (hall : ∀ n ∈ names, (readFile files n).isSome = true) :
    (gifWalk files none names).map (frameContent files) =
      specCollapseAdjacent (names.map (frameContent files)) := by
  cases names with
  | nil => rfl
  | cons n rest =>
      have hn : (readFile files n).isSome = true := hall n (List.mem_cons_self _ _)
      have hrest : ∀ m ∈ rest, (readFile files m).isSome = true :=
        fun m hm => hall m (List.mem_cons_of_mem _ hm)
      show (n :: gifWalk files (some n) rest).map (frameContent files) =
        specCollapseAdjacent ((n :: rest).map (frameContent files))
      rw [List.map_cons, List.map_cons, specCollapseAdjacent]
      rw [gifWalk_go files rest n hrest hn]

/-- Claim C4 witness: on the concrete directory `F4` whose four frames hold
contents A, A, B, A, the emitted animation contains exactly A, B, A. -/
theorem claim4_assembly_dedup_witness :
    (gifWalk F4 none ["n0", "n1", "n2", "n3"]).map (frameContent F4) =
      [[0], [1], [0]] :=
  (claim4_assembly_dedup F4 ["n0", "n1", "n2", "n3"] (by decide)).trans (by decide)

/-- Claim C6: an absent directory loads as an empty result rather than an
error; for any listing, the loaded frames are exactly the files matching the
recognized pattern, ordered ascending by the embedded timestamp; a session
start reports `existingImages` equal to that count; and on a concrete
listing whose lexical order disagrees with timestamp order the load yields
timestamp order. -/
theorem claim6_load_existing :
    (loadExistingSession none = { images := [], captureCount := 0 }) ∧
    (∀ files : List String,
      (loadExistingSession (some files)).captureCount =
        (files.filter isFrameFile).length ∧
      (loadExistingSession (some files)).images.Perm (files.filter isFrameFile) ∧
      (loadExistingSession (some files)).images.Pairwise
        (fun a b => tsKey a ≤ tsKey b)) ∧
    (∀ (meta : Option Metadata) (url : String) (now : Nat)
       (listing : Option (List String)),
      (startStep meta url now listing).2.2.existingImages =
        (loadExistingSession listing).captureCount) ∧
    (loadExistingSession
        (some ["image_00001_200.png", "image_00000_100.png",
               "image_00002_50.png", "readme.txt"]) =
      { images := ["image_00002_50.png", "image_00000_100.png",
                   "image_00001_200.png"], captureCount := 3 }) := by
  refine ⟨rfl, ?_, fun _ _ _ _ => rfl, by decide⟩
  intro files
  haveI htot : IsTotal String (fun a b => tsKey a ≤ tsKey b) :=
    ⟨fun a b => le_total (tsKey a) (tsKey b)⟩
  haveI htr : IsTrans String (fun a b => tsKey a ≤ tsKey b) :=
    ⟨fun a b c hab hbc => le_trans hab hbc⟩
  have hlen : (loadExistingSession (some files)).images =
      (files.filter isFrameFile).insertionSort (fun a b => tsKey a ≤ tsKey b) := rfl
  refine ⟨?_, ?_, ?_⟩
  · show ((files.filter isFrameFile).insertionSort
        (fun a b => tsKey a ≤ tsKey b)).length = _
    exact (List.perm_insertionSort _ _).length_eq
  · rw [hlen]
    exact List.perm_insertionSort _ _
  · rw [hlen]
    exact List.sorted_insertionSort _ _
